import Mathlib

/-!
Shallow embedding of the UpdateOTA repository (ronny-antoon/UpdateOTA).

The embedded code is:
  * `Updater::startUpdate` and its helpers (`readBlockFirmwareToBuffer`,
    `writeBlockBufferToPartition`, `resetPartitionRange`,
    `getAPPUpdatePartition`, `getSPIFFSPartition`, `changeBootPartition`,
    `callOnStart` / `callOnProgress` / `callOnEnd` / `callOnError`, `_abort`)
    from `src/src/Downloader.cpp` (the Updater part of that file);
  * `UpdateOTA::updateFirmaware`, `UpdateOTA::updateSPIFFS` and
    `UpdateOTA::newerVersion` from `src/unnamed/part_002` (UpdateOTA.cpp).

External collaborators (the `Stream`, the ESP-IDF partition API, the boot
switch, `ESP.getFreeSketchSpace`, the downloader) are modelled as an
environment record of abstract behaviours; every call the code makes to a
collaborator or observer is recorded as an event in a trace, so the
theorems can speak about which calls happened and with which arguments.

Machine integers: `streamLength` is a C `int`, modelled as `Int`;
`size_t` / `uint32_t` values are modelled as `Nat` with explicit `% 2^32`
where the C code mixes signed and unsigned operands.  All `size_t`
arithmetic inside the block-transfer loop stays strictly below `2^32`
whenever the space check has passed (offsets are bounded by
`maxSketchSpace + BLOCK_SIZE_P ≤ 2^32`), so plain `Nat` arithmetic agrees
with the wrapping machine arithmetic there.
-/

namespace UpdateOTAProof

/-- Error codes of the Updater (enum `UPDATER_ERROR` in UpdaterInterface.hpp). -/
inductive UPDATER_ERROR where
  | OK
  | NO_PARTITION_AVAILABLE
  | CHANGE_BOOT_PARTITION_FAILED
  | PARTITION_WRITE_FAILED
  | READ_FAILED
  | NO_ENOUGH_SPACE
  | UNKNOWN
deriving DecidableEq, Repr

/-- Update kinds (enum `UPDATER_TYPE` in UpdaterInterface.hpp). -/
inductive UPDATER_TYPE where
  | FIRMWARE
  | SPIFFS
deriving DecidableEq, Repr

/-- Partition block size, `#define BLOCK_SIZE_P (4096)`. -/
def BLOCK_SIZE_P : Nat := 4096

/-- Value of a C `int` reinterpreted as a 32-bit unsigned quantity, as happens
in `_streamLength > maxSketchSpace` (int vs `uint32_t`) and
`written < _streamLength` (`size_t` vs int). -/
def u32 (n : Int) : Nat := (n % (2 ^ 32 : Int)).toNat

/-- Unsigned 32-bit subtraction with wraparound, used for the C expression
`maxSketchSpace - BLOCK_SIZE_P` (both operands `uint32_t`). -/
def u32sub (a b : Nat) : Nat := (a + 2 ^ 32 - b) % 2 ^ 32

/-- Observable events of one `Updater::startUpdate` run.

`onProgress w l` records a call of `Updater::callOnProgress(w, l)`; that
function unconditionally evaluates `(_wretten * 100) / _length`, i.e. a
division with divisor `l`, before invoking the registered callback.
`read offset requested result` records one `Stream::readBytes` call issued
from `readBlockFirmwareToBuffer` at partition offset `offset` asking for
`requested` bytes and obtaining `result` bytes.  `erase offset length`
records `esp_partition_erase_range`, `write offset length` records
`esp_partition_write`, `setBoot` records `esp_ota_set_boot_partition`,
and `onStart` / `onEnd` / `onError` record the corresponding callbacks. -/
inductive Event where
  | onStart
  | onProgress (written length : Int)
  | read (offset requested result : Nat)
  | erase (offset length : Nat)
  | write (offset length : Nat)
  | setBoot
  | onEnd
  | onError (code : UPDATER_ERROR)
deriving DecidableEq, Repr

/-- Behaviour of the platform and of the stream source for one run.
`reads n len` is the byte count returned by the `n`-th `readBytes` call of
the run when asked for `len` bytes; `eraseOk n` / `writeOk n` tell whether
the `n`-th erase / write call returns `ESP_OK`; `bootOk` is the outcome of
`esp_ota_set_boot_partition`; the partition-availability flags describe
`esp_ota_get_next_update_partition` and `esp_partition_find_first`;
`freeSketchSpace` is the `uint32_t` returned by `ESP.getFreeSketchSpace()`. -/
structure Env where
  freeSketchSpace : Nat
  hasAppPartition : Bool
  hasSpiffsPartition : Bool
  reads : Nat → Nat → Nat
  eraseOk : Nat → Bool
  writeOk : Nat → Bool
  bootOk : Bool

/-- The space bound computed at the top of `startUpdate`:
`ESP.getFreeSketchSpace() - (ESP.getFreeSketchSpace() % BLOCK_SIZE_P)`. -/
def maxSketchSpace (env : Env) : Nat :=
  env.freeSketchSpace - env.freeSketchSpace % BLOCK_SIZE_P

/-- Partition lookup of `startUpdate`: `getAPPUpdatePartition` for FIRMWARE
(`esp_ota_get_next_update_partition`), `getSPIFFSPartition` for SPIFFS
(`esp_partition_find_first`); `true` iff a partition handle is returned. -/
def partitionAvailable (env : Env) : UPDATER_TYPE → Bool
  | UPDATER_TYPE.FIRMWARE => env.hasAppPartition
  | UPDATER_TYPE.SPIFFS => env.hasSpiffsPartition

/-- Result of a run: the returned `UPDATER_ERROR`, the final value of the
local `written` counter, and the trace of events in order. -/
structure RunResult where
  err : UPDATER_ERROR
  written : Nat
  trace : List Event
deriving DecidableEq, Repr

/-- The retry loop inside `readBlockFirmwareToBuffer`: one `readBytes` call,
then `while (readed == 0 && retry < 30) { delay(100); readBytes; retry++ }`.
In total at most 30 calls are issued; the loop stops at the first call that
returns a non-zero count.  `fuel` is the number of calls still allowed
(30 at the top); returns (bytes obtained, next read index, read events). -/
def readBytesRetry (env : Env) (offset len readIdx : Nat) : Nat → Nat × Nat × List Event
  | 0 => (0, readIdx, [])
  | fuel + 1 =>
    let r := env.reads readIdx len
    if r = 0 then
      let rest := readBytesRetry env offset len (readIdx + 1) fuel
      (rest.1, rest.2.1, Event.read offset len r :: rest.2.2)
    else
      (r, readIdx + 1, [Event.read offset len r])

/-- The clipped request length computed at the top of
`readBlockFirmwareToBuffer`:
`if (_streamLength < offset + length) length = _streamLength - offset`
(comparison and subtraction in `size_t`), starting from
`length = BLOCK_SIZE_P`. -/
def blockLen (streamLenU offset : Nat) : Nat :=
  if streamLenU < offset + BLOCK_SIZE_P then streamLenU - offset else BLOCK_SIZE_P

/-- `Updater::readBlockFirmwareToBuffer(offset, BLOCK_SIZE_P)`: clip the
requested length to the remaining stream bytes, then run the bounded retry
loop; a result of 0 means all 30 attempts returned zero bytes. -/
def readBlockFirmwareToBuffer (env : Env) (streamLenU offset readIdx : Nat) :
    Nat × Nat × List Event :=
  readBytesRetry env offset (blockLen streamLenU offset) readIdx 30

/-- The block-transfer loop of `Updater::startUpdate`
(`while (written < _streamLength) { ... }`) together with the code that
follows it (`changeBootPartition` for FIRMWARE, then `callOnEnd`).
Parameters `written`, `readIdx`, `eraseIdx`, `writeIdx` are the current
byte counter and the number of read / erase / write calls already issued.
Each iteration: clear the buffer (no observable effect), read a block
(abort `READ_FAILED` when it yields 0 bytes), erase
`[written, written + BLOCK_SIZE_P)` (abort `UNKNOWN` on failure), possibly
look-ahead erase the following block when
`_streamLength == written + BLOCK_SIZE_P &&
 _streamLength < maxSketchSpace - BLOCK_SIZE_P`, write `toWrite` bytes at
offset `written` (abort `PARTITION_WRITE_FAILED` on failure), advance
`written` and invoke `callOnProgress(written, _streamLength)`. -/
def blockTransferLoop (env : Env) (streamLength : Int) (msk : Nat) (type : UPDATER_TYPE)
    (written readIdx eraseIdx writeIdx : Nat) : RunResult :=
  if hW : written < u32 streamLength then
    let rb := readBlockFirmwareToBuffer env (u32 streamLength) written readIdx
    if hT : rb.1 = 0 then
      ⟨UPDATER_ERROR.READ_FAILED, written,
        rb.2.2 ++ [Event.onError UPDATER_ERROR.READ_FAILED]⟩
    else if env.eraseOk eraseIdx = false then
      ⟨UPDATER_ERROR.UNKNOWN, written,
        rb.2.2 ++ [Event.erase written BLOCK_SIZE_P,
          Event.onError UPDATER_ERROR.UNKNOWN]⟩
    else if u32 streamLength = written + BLOCK_SIZE_P ∧
        u32 streamLength < u32sub msk BLOCK_SIZE_P then
      if env.eraseOk (eraseIdx + 1) = false then
        ⟨UPDATER_ERROR.UNKNOWN, written,
          rb.2.2 ++ [Event.erase written BLOCK_SIZE_P,
            Event.erase (written + BLOCK_SIZE_P) BLOCK_SIZE_P,
            Event.onError UPDATER_ERROR.UNKNOWN]⟩
      else if env.writeOk writeIdx = false then
        ⟨UPDATER_ERROR.PARTITION_WRITE_FAILED, written,
          rb.2.2 ++ [Event.erase written BLOCK_SIZE_P,
            Event.erase (written + BLOCK_SIZE_P) BLOCK_SIZE_P,
            Event.write written rb.1,
            Event.onError UPDATER_ERROR.PARTITION_WRITE_FAILED]⟩
      else
        let res := blockTransferLoop env streamLength msk type
          (written + rb.1) rb.2.1 (eraseIdx + 2) (writeIdx + 1)
        ⟨res.err, res.written,
          rb.2.2 ++ [Event.erase written BLOCK_SIZE_P,
            Event.erase (written + BLOCK_SIZE_P) BLOCK_SIZE_P,
            Event.write written rb.1,
            Event.onProgress ((written + rb.1 : Nat) : Int) streamLength] ++ res.trace⟩
    else
      if env.writeOk writeIdx = false then
        ⟨UPDATER_ERROR.PARTITION_WRITE_FAILED, written,
          rb.2.2 ++ [Event.erase written BLOCK_SIZE_P,
            Event.write written rb.1,
            Event.onError UPDATER_ERROR.PARTITION_WRITE_FAILED]⟩
      else
        let res := blockTransferLoop env streamLength msk type
          (written + rb.1) rb.2.1 (eraseIdx + 1) (writeIdx + 1)
        ⟨res.err, res.written,
          rb.2.2 ++ [Event.erase written BLOCK_SIZE_P,
            Event.write written rb.1,
            Event.onProgress ((written + rb.1 : Nat) : Int) streamLength] ++ res.trace⟩
  else
    if type = UPDATER_TYPE.FIRMWARE then
      if env.bootOk then ⟨UPDATER_ERROR.OK, written, [Event.setBoot, Event.onEnd]⟩
      else ⟨UPDATER_ERROR.CHANGE_BOOT_PARTITION_FAILED, written,
        [Event.setBoot, Event.onError UPDATER_ERROR.CHANGE_BOOT_PARTITION_FAILED]⟩
    else ⟨UPDATER_ERROR.OK, written, [Event.onEnd]⟩
termination_by u32 streamLength - written
decreasing_by
  all_goals simp_wf
  all_goals unfold rb at hT
  all_goals omega

/-- `Updater::startUpdate(streamData, streamLength, type)`: space check
(`_streamLength > maxSketchSpace`, an int-vs-uint32 comparison), partition
lookup by kind, `callOnStart`, `callOnProgress(0, _streamLength)`, then the
block-transfer loop.  Every failure path goes through `_abort`, which
invokes `callOnError` and returns the error. -/
def startUpdate (env : Env) (streamLength : Int) (type : UPDATER_TYPE) : RunResult :=
  if u32 streamLength > maxSketchSpace env then
    ⟨UPDATER_ERROR.NO_ENOUGH_SPACE, 0, [Event.onError UPDATER_ERROR.NO_ENOUGH_SPACE]⟩
  else if partitionAvailable env type = false then
    ⟨UPDATER_ERROR.NO_PARTITION_AVAILABLE, 0,
      [Event.onError UPDATER_ERROR.NO_PARTITION_AVAILABLE]⟩
  else
    let res := blockTransferLoop env streamLength (maxSketchSpace env) type 0 0 0 0
    ⟨res.err, res.written,
      Event.onStart :: Event.onProgress 0 streamLength :: res.trace⟩

/-- Whether an event is an `esp_partition_write` call. -/
def isWriteEvent : Event → Bool
  | Event.write _ _ => true
  | _ => false

/-- Whether an event is an `esp_partition_erase_range` call. -/
def isEraseEvent : Event → Bool
  | Event.erase _ _ => true
  | _ => false

/-- Whether an event is a `Stream::readBytes` call. -/
def isReadEvent : Event → Bool
  | Event.read _ _ _ => true
  | _ => false

/-- Whether an event is a destructive flash operation (erase or write). -/
def isDestructiveEvent : Event → Bool
  | Event.erase _ _ => true
  | Event.write _ _ => true
  | _ => false

/-- Number of `esp_partition_write` calls in a trace. -/
def writeCount (tr : List Event) : Nat := (tr.filter isWriteEvent).length

/-- Number of `Stream::readBytes` calls in a trace. -/
def readCount (tr : List Event) : Nat := (tr.filter isReadEvent).length

/-- Per-event invariant of the block-transfer loop trace, for a run with
stream length `streamLength` and capacity bound `msk`: erase calls cover
one block and start strictly below the stream end (regular erase) or
exactly at the stream end under the look-ahead capacity condition; write
calls start strictly below the stream end with positive length; progress
callbacks always receive `_streamLength` as divisor argument. -/
def loopEventInv (streamLength : Int) (msk : Nat) (e : Event) : Prop :=
  (∀ o l, e = Event.erase o l → l = BLOCK_SIZE_P ∧
    (o < u32 streamLength ∨
      (o = u32 streamLength ∧ BLOCK_SIZE_P ≤ o ∧
        u32 streamLength < u32sub msk BLOCK_SIZE_P))) ∧
  (∀ o l, e = Event.write o l → o < u32 streamLength ∧ 0 < l) ∧
  (∀ w d, e = Event.onProgress w d → d = streamLength)

/-! Version comparator (`UpdateOTA::newerVersion` in UpdateOTA.cpp).

The C function scans exactly 32 characters of each input buffer, splitting
on dots into three component buffers, null-terminates each component and
compares them with `atoi`.  A version string is modelled as the list of the
characters stored in the buffer; indices beyond the provided list read as
NUL bytes (buffers holding version strings are zero-initialised by
`Downloader::getVersion` before use). -/

/-- The NUL character, `'\0'`. -/
def NUL : Char := Char.ofNat 0

/-- The byte the 32-character scan sees at index `i` of the buffer. -/
def bufChar (s : List Char) (i : Nat) : Char := s.getD i NUL

/-- State of the splitting scan: dot counter and the three component
buffers (`major...Version`, `minor...Version`, `patch...Version` with their
length counters). -/
structure Split3 where
  dots : Nat
  major : List Char
  minor : List Char
  patch : List Char
deriving DecidableEq, Repr

/-- One step of the splitting scan in `newerVersion`: a dot bumps the dot
counter, any other character is appended to the component selected by the
current dot count (characters after a third dot are dropped). -/
def splitStep (st : Split3) (c : Char) : Split3 :=
  if c = '.' then { st with dots := st.dots + 1 }
  else if st.dots = 0 then { st with major := st.major ++ [c] }
  else if st.dots = 1 then { st with minor := st.minor ++ [c] }
  else if st.dots = 2 then { st with patch := st.patch ++ [c] }
  else st

/-- The `for (int i = 0; i < 32; i++)` splitting loop of `newerVersion`. -/
def splitVersion (s : List Char) : Split3 :=
  (List.range 32).foldl (fun st i => splitStep st (bufChar s i)) ⟨0, [], [], []⟩

/-- Contents of a component buffer viewed as a C string: the characters up
to the first NUL byte (the buffers are null-terminated after the scan, and
`atoi` reads them as C strings). -/
def cString (l : List Char) : List Char := l.takeWhile (fun c => c != NUL)

/-- Whitespace recognised by `atoi` (C `isspace`). -/
def isSpaceByte (c : Char) : Bool :=
  c == ' ' || c == '\t' || c == '\n' || c == Char.ofNat 11 || c == Char.ofNat 12 || c == '\r'

/-- Digit-accumulation loop of `atoi`: consume decimal digits, stop at the
first non-digit. -/
def atoiDigits : List Char → Int → Int
  | [], acc => acc
  | c :: cs, acc =>
    if c.isDigit then atoiDigits cs (acc * 10 + ((c.toNat : Int) - 48)) else acc

/-- C `atoi`: skip leading whitespace, read an optional sign, then decimal
digits; everything after the first non-digit is ignored; no digits at all
yield 0. -/
def atoi (l : List Char) : Int :=
  match l.dropWhile isSpaceByte with
  | '-' :: cs => - atoiDigits cs 0
  | '+' :: cs => atoiDigits cs 0
  | cs => atoiDigits cs 0

/-- The comparison cascade at the end of `newerVersion`: `result` starts
`false` and is set `true` exactly when the server triple is strictly
greater in (major, minor, patch) order. -/
def newerDecision (mc ms nc ns pc ps : Int) : Bool :=
  if mc < ms then true
  else if mc = ms then
    if nc < ns then true
    else if nc = ns then
      if pc < ps then true else false
    else false
  else false

/-- `UpdateOTA::newerVersion(_currentVersion, _serverVersion)`: split both
32-character windows into (major, minor, patch) component strings, convert
each with `atoi`, and compare. -/
def newerVersion (currentVersion serverVersion : List Char) : Bool :=
  let c := splitVersion currentVersion
  let s := splitVersion serverVersion
  newerDecision
    (atoi (cString c.major)) (atoi (cString s.major))
    (atoi (cString c.minor)) (atoi (cString s.minor))
    (atoi (cString c.patch)) (atoi (cString s.patch))

/-- The (major, minor, patch) integer triple a version buffer parses to
under `newerVersion`'s scan-and-`atoi` procedure. -/
def parsedTriple (s : List Char) : Int × Int × Int :=
  (atoi (cString (splitVersion s).major),
   atoi (cString (splitVersion s).minor),
   atoi (cString (splitVersion s).patch))

/-- Strict lexicographic order on (major, minor, patch) triples, written
out from the spec's words for the comparison contract. -/
def tripleLt (a b : Int × Int × Int) : Prop :=
  a.1 < b.1 ∨ (a.1 = b.1 ∧ (a.2.1 < b.2.1 ∨ (a.2.1 = b.2.1 ∧ a.2.2 < b.2.2)))

instance (a b : Int × Int × Int) : Decidable (tripleLt a b) := by
  unfold tripleLt
  infer_instance

/-! Update facade (`UpdateOTA::updateFirmaware` / `UpdateOTA::updateSPIFFS`
in UpdateOTA.cpp).

The downloader and updater collaborators are dependency-injected
interfaces; their behaviour for one call is an environment record, and
each collaborator call is recorded as a facade event.  A `const char *`
argument is modelled as a `List Char`, with `[]` standing for both a null
pointer and an empty string (the code treats the two alike:
`currentVersion != nullptr && strlen(currentVersion) != 0`). -/

/-- Error codes of the facade (enum `UPDATE_OTA_ERROR`). -/
inductive UPDATE_OTA_ERROR where
  | OK
  | NO_PARTITION_AVAILABLE
  | CHANGE_BOOT_PARTITION_FAILED
  | PARTITION_WRITE_FAILED
  | READ_FAILED
  | NO_ENOUGH_SPACE
  | INVALID_ARGUMENT
  | NO_NEW_VERSION
  | UNKNOWN
deriving DecidableEq, Repr

/-- Collaborator calls the facade can make, in order of occurrence. -/
inductive FEvent where
  | setCA
  | setURLVersion
  | getVersion
  | setURLBin
  | download
  | startUpdateCall
deriving DecidableEq, Repr

/-- Behaviour of the injected downloader and updater for one facade call:
outcomes of `setCA`, `setURLForVersion`, `setURLForBin`, `download`; the
version text `getVersion` stores into the zero-initialised 20-byte buffer
(`none` when `getVersion` fails); and the error `startUpdate` returns. -/
structure FacadeEnv where
  setCAOk : Bool
  setURLVersionOk : Bool
  getVersionResult : Option (List Char)
  setURLBinOk : Bool
  downloadOk : Bool
  startUpdateResult : UPDATER_ERROR

/-- Tail shared by both update entry points: `setURLForBin` → `download` →
`startUpdate`, each failure mapped to `UNKNOWN`. -/
def facadeTail (env : FacadeEnv) (evs : List FEvent) : UPDATE_OTA_ERROR × List FEvent :=
  let e1 := evs ++ [FEvent.setURLBin]
  if env.setURLBinOk = false then (UPDATE_OTA_ERROR.UNKNOWN, e1)
  else
    let e2 := e1 ++ [FEvent.download]
    if env.downloadOk = false then (UPDATE_OTA_ERROR.UNKNOWN, e2)
    else
      let e3 := e2 ++ [FEvent.startUpdateCall]
      if env.startUpdateResult = UPDATER_ERROR.OK then (UPDATE_OTA_ERROR.OK, e3)
      else (UPDATE_OTA_ERROR.UNKNOWN, e3)

/-- `UpdateOTA::updateFirmaware(urlFirmware, urlVersion, currentVersion)`
with the facade's stored CA certificate `ca`: argument check, optional
`setCA`, optional remote-version check (skipping the update with
`NO_NEW_VERSION` when the remote version is not newer), then the download
and update tail. -/
def updateFirmaware (env : FacadeEnv) (ca urlFirmware currentVersion : List Char) :
    UPDATE_OTA_ERROR × List FEvent :=
  if urlFirmware.length = 0 then (UPDATE_OTA_ERROR.INVALID_ARGUMENT, [])
  else
    let caEvs : List FEvent := if ca.length ≠ 0 then [FEvent.setCA] else []
    if ca.length ≠ 0 ∧ env.setCAOk = false then (UPDATE_OTA_ERROR.UNKNOWN, caEvs)
    else if currentVersion.length ≠ 0 then
      let e1 := caEvs ++ [FEvent.setURLVersion]
      if env.setURLVersionOk = false then (UPDATE_OTA_ERROR.UNKNOWN, e1)
      else
        let e2 := e1 ++ [FEvent.getVersion]
        match env.getVersionResult with
        | none => (UPDATE_OTA_ERROR.UNKNOWN, e2)
        | some versionDist =>
          if newerVersion currentVersion versionDist then facadeTail env e2
          else (UPDATE_OTA_ERROR.NO_NEW_VERSION, e2)
    else facadeTail env caEvs

/-- `UpdateOTA::updateSPIFFS(url, urlVersion, currentVersion)`: identical
orchestration to `updateFirmaware`, except that the not-newer branch of the
version check returns `UNKNOWN` (UpdateOTA.cpp line 159), not
`NO_NEW_VERSION`, and the final `startUpdate` targets the SPIFFS
partition. -/
def updateSPIFFS (env : FacadeEnv) (ca url currentVersion : List Char) :
    UPDATE_OTA_ERROR × List FEvent :=
  if url.length = 0 then (UPDATE_OTA_ERROR.INVALID_ARGUMENT, [])
  else
    let caEvs : List FEvent := if ca.length ≠ 0 then [FEvent.setCA] else []
    if ca.length ≠ 0 ∧ env.setCAOk = false then (UPDATE_OTA_ERROR.UNKNOWN, caEvs)
    else if currentVersion.length ≠ 0 then
      let e1 := caEvs ++ [FEvent.setURLVersion]
      if env.setURLVersionOk = false then (UPDATE_OTA_ERROR.UNKNOWN, e1)
      else
        let e2 := e1 ++ [FEvent.getVersion]
        match env.getVersionResult with
        | none => (UPDATE_OTA_ERROR.UNKNOWN, e2)
        | some versionDist =>
          if newerVersion currentVersion versionDist then facadeTail env e2
          else (UPDATE_OTA_ERROR.UNKNOWN, e2)
    else facadeTail env caEvs

/-! Concrete environments used to instantiate the theorems below. -/

/-- 20480 bytes of free sketch space, both partitions present, a stream
that always delivers the full requested count, a platform whose erase,
write and boot-switch calls all succeed. -/
def envFull20480 : Env :=
  { freeSketchSpace := 20480, hasAppPartition := true, hasSpiffsPartition := true,
    reads := fun _ l => l, eraseOk := fun _ => true, writeOk := fun _ => true,
    bootOk := true }

/-- Like `envFull20480` with 8192 bytes of free sketch space. -/
def envFull8192 : Env :=
  { freeSketchSpace := 8192, hasAppPartition := true, hasSpiffsPartition := true,
    reads := fun _ l => l, eraseOk := fun _ => true, writeOk := fun _ => true,
    bootOk := true }

/-- Stream that stalls (returns zero bytes) on the first two `readBytes`
calls and then delivers in full; platform fully functional. -/
def envRetry2 : Env :=
  { freeSketchSpace := 8192, hasAppPartition := true, hasSpiffsPartition := true,
    reads := fun n l => if n < 2 then 0 else l, eraseOk := fun _ => true,
    writeOk := fun _ => true, bootOk := true }

/-- Stream that always returns zero bytes; platform fully functional. -/
def envZeroReads : Env :=
  { freeSketchSpace := 8192, hasAppPartition := true, hasSpiffsPartition := true,
    reads := fun _ _ => 0, eraseOk := fun _ => true, writeOk := fun _ => true,
    bootOk := true }

/-- Stream with short non-zero reads (4095 bytes, then 4096, then 1 byte)
that drives `written` out of block alignment; the third erase call is made
to fail so that the run stops right after issuing it. -/
def envShortC3 : Env :=
  { freeSketchSpace := 8192, hasAppPartition := true, hasSpiffsPartition := true,
    reads := fun n _ => if n = 0 then 4095 else if n = 1 then 4096 else 1,
    eraseOk := fun n => !(n == 2), writeOk := fun _ => true, bootOk := true }

/-- Stream whose first read delivers a single byte and whose second read
delivers the remaining 4095 bytes; platform fully functional, so the run
completes without any abort. -/
def envShortC5 : Env :=
  { freeSketchSpace := 16384, hasAppPartition := true, hasSpiffsPartition := true,
    reads := fun n _ => if n = 0 then 1 else 4095, eraseOk := fun _ => true,
    writeOk := fun _ => true, bootOk := true }

/-- Device with no application and no SPIFFS partition in its partition
table. -/
def envNoPartition : Env :=
  { freeSketchSpace := 8192, hasAppPartition := false, hasSpiffsPartition := false,
    reads := fun _ l => l, eraseOk := fun _ => true, writeOk := fun _ => true,
    bootOk := true }

/-- Device reporting `0xFFFFFFFF` bytes of free sketch space (the largest
`uint32` value); every partition write fails, stopping the run inside the
first loop iteration. -/
def envHugeSpace : Env :=
  { freeSketchSpace := 2 ^ 32 - 1, hasAppPartition := true, hasSpiffsPartition := true,
    reads := fun _ l => l, eraseOk := fun _ => true, writeOk := fun _ => false,
    bootOk := true }

/-- Facade collaborators for a run in which every downloader call succeeds
and the version file on the server holds `1.0.0`. -/
def fenvServer100 : FacadeEnv :=
  { setCAOk := true, setURLVersionOk := true, getVersionResult := some ("1.0.0".data),
    setURLBinOk := true, downloadOk := true, startUpdateResult := UPDATER_ERROR.OK }

/-! Helper lemmas about the bounded read-retry loop. -/

/-- Every event the retry loop emits is a `readBytes` call at the given
offset with the given request length. -/
theorem readBytesRetry_events (env : Env) (offset len : Nat) :
    ∀ fuel readIdx, ∀ e ∈ (readBytesRetry env offset len readIdx fuel).2.2,
      ∃ res, e = Event.read offset len res := by
  intro fuel
  induction fuel with
  | zero => intro readIdx e he; simp [readBytesRetry] at he
  | succ n IH =>
    intro readIdx e he
    rw [readBytesRetry] at he
    by_cases hz : env.reads readIdx len = 0
    · simp only [hz, if_true, eq_self_iff_true] at he
      simp only [List.mem_cons] at he
      rcases he with he1 | he2
      · exact ⟨0, by simp [he1, hz]⟩
      · exact IH (readIdx + 1) e he2
    · simp only [hz, if_false, if_neg hz, List.mem_singleton] at he
      exact ⟨env.reads readIdx len, he⟩

/-- When the stream source never returns more bytes than requested, neither
does the retry loop. -/
theorem readBytesRetry_le (env : Env) (offset len : Nat)
    (hconf : ∀ n l, env.reads n l ≤ l) :
    ∀ fuel readIdx, (readBytesRetry env offset len readIdx fuel).1 ≤ len := by
  intro fuel
  induction fuel with
  | zero => intro readIdx; simp [readBytesRetry]
  | succ n IH =>
    intro readIdx
    rw [readBytesRetry]
    by_cases hz : env.reads readIdx len = 0
    · simpa [hz] using IH (readIdx + 1)
    · simpa [hz] using hconf readIdx len

/-- If the first `k` calls return zero bytes and call `k` (0-based) returns
a non-zero count, with `k` below the retry bound, the retry loop returns
that non-zero count. -/
theorem readBytesRetry_first_nonzero (env : Env) (offset len : Nat) :
    ∀ k fuel readIdx, k < fuel →
      (∀ j, j < k → env.reads (readIdx + j) len = 0) →
      env.reads (readIdx + k) len ≠ 0 →
      (readBytesRetry env offset len readIdx fuel).1 = env.reads (readIdx + k) len := by
  intro k
  induction k with
  | zero =>
    intro fuel readIdx hk _ hnz
    match fuel, hk with
    | n + 1, _ =>
      rw [readBytesRetry]
      simp only [Nat.add_zero] at hnz
      simp [hnz]
  | succ m IH =>
    intro fuel readIdx hk hzero hnz
    match fuel, hk with
    | n + 1, hk =>
      rw [readBytesRetry]
      have h0 : env.reads readIdx len = 0 := by
        have := hzero 0 (Nat.succ_pos m)
        simpa using this
      simp only [h0, if_pos rfl]
      have hrec := IH n (readIdx + 1) (by omega)
        (fun j hj => by
          have := hzero (j + 1) (by omega)
          simpa [Nat.add_assoc, Nat.add_comm 1 j] using this)
        (by
          have heq : readIdx + 1 + m = readIdx + (m + 1) := by omega
          simpa [heq] using hnz)
      have heq : readIdx + 1 + m = readIdx + (m + 1) := by omega
      simpa [heq] using hrec

/-- If all calls up to the retry bound return zero bytes, the retry loop
returns 0 and has issued exactly `fuel` `readBytes` calls. -/
theorem readBytesRetry_all_zero (env : Env) (offset len : Nat) :
    ∀ fuel readIdx, (∀ j, j < fuel → env.reads (readIdx + j) len = 0) →
      (readBytesRetry env offset len readIdx fuel).1 = 0 ∧
      (readBytesRetry env offset len readIdx fuel).2.2.length = fuel := by
  intro fuel
  induction fuel with
  | zero => intro readIdx _; simp [readBytesRetry]
  | succ n IH =>
    intro readIdx hzero
    have h0 : env.reads readIdx len = 0 := by
      have := hzero 0 (Nat.succ_pos n)
      simpa using this
    have hrec := IH (readIdx + 1) (fun j hj => by
      have := hzero (j + 1) (by omega)
      simpa [Nat.add_assoc, Nat.add_comm 1 j] using this)
    rw [readBytesRetry]
    simp [h0, hrec.1, hrec.2]

/-- Under a stream that always delivers the full requested count, a block
read with a non-empty request succeeds on the first attempt. -/
theorem readBlockFirmwareToBuffer_full (env : Env) (streamLenU offset readIdx : Nat)
    (hfull : ∀ n l, env.reads n l = l) (hpos : blockLen streamLenU offset ≠ 0) :
    readBlockFirmwareToBuffer env streamLenU offset readIdx =
      (blockLen streamLenU offset, readIdx + 1,
        [Event.read offset (blockLen streamLenU offset) (blockLen streamLenU offset)]) := by
  rw [readBlockFirmwareToBuffer, readBytesRetry]
  simp [hfull, hpos]

/-- The clipped request length is `min(blockSize, streamLen − offset)`. -/
theorem blockLen_eq_min (streamLenU offset : Nat) (h : offset ≤ streamLenU) :
    blockLen streamLenU offset = min BLOCK_SIZE_P (streamLenU - offset) := by
  simp only [blockLen, BLOCK_SIZE_P]
  split_ifs with hc <;> omega

/-- The clipped request length is positive below the end of the stream. -/
theorem blockLen_pos (streamLenU offset : Nat) (h : offset < streamLenU) :
    blockLen streamLenU offset ≠ 0 := by
  simp only [blockLen, BLOCK_SIZE_P]
  split_ifs with hc <;> omega

/-! Trace invariants of the block-transfer loop. -/

/-- Read events satisfy the loop event invariant vacuously. -/
theorem loopEventInv_read (sl : Int) (msk o q r : Nat) :
    loopEventInv sl msk (Event.read o q r) := by
  unfold loopEventInv
  refine ⟨?_, ?_, ?_⟩
  · intro o l h
    exact nomatch h
  · intro o l h
    exact nomatch h
  · intro w d h
    exact nomatch h

/-- Error events satisfy the loop event invariant vacuously. -/
theorem loopEventInv_onError (sl : Int) (msk : Nat) (c : UPDATER_ERROR) :
    loopEventInv sl msk (Event.onError c) := by
  unfold loopEventInv
  refine ⟨?_, ?_, ?_⟩
  · intro o l h
    exact nomatch h
  · intro o l h
    exact nomatch h
  · intro w d h
    exact nomatch h

/-- Boot-switch events satisfy the loop event invariant vacuously. -/
theorem loopEventInv_setBoot (sl : Int) (msk : Nat) :
    loopEventInv sl msk Event.setBoot := by
  unfold loopEventInv
  refine ⟨?_, ?_, ?_⟩
  · intro o l h
    exact nomatch h
  · intro o l h
    exact nomatch h
  · intro w d h
    exact nomatch h

/-- End-callback events satisfy the loop event invariant vacuously. -/
theorem loopEventInv_onEnd (sl : Int) (msk : Nat) :
    loopEventInv sl msk Event.onEnd := by
  unfold loopEventInv
  refine ⟨?_, ?_, ?_⟩
  · intro o l h
    exact nomatch h
  · intro o l h
    exact nomatch h
  · intro w d h
    exact nomatch h

/-- The regular pre-write erase satisfies the loop event invariant. -/
theorem loopEventInv_erase_regular (sl : Int) (msk o : Nat) (h : o < u32 sl) :
    loopEventInv sl msk (Event.erase o BLOCK_SIZE_P) := by
  unfold loopEventInv
  refine ⟨?_, ?_, ?_⟩
  · intro o2 l2 h2
    cases h2
    exact ⟨rfl, Or.inl h⟩
  · intro o2 l2 h2
    exact nomatch h2
  · intro w2 d2 h2
    exact nomatch h2

/-- The look-ahead erase satisfies the loop event invariant. -/
theorem loopEventInv_erase_lookahead (sl : Int) (msk o : Nat)
    (h1 : o = u32 sl) (hB : BLOCK_SIZE_P ≤ o) (h2 : u32 sl < u32sub msk BLOCK_SIZE_P) :
    loopEventInv sl msk (Event.erase o BLOCK_SIZE_P) := by
  unfold loopEventInv
  refine ⟨?_, ?_, ?_⟩
  · intro o2 l2 h3
    cases h3
    exact ⟨rfl, Or.inr ⟨h1, hB, h2⟩⟩
  · intro o2 l2 h3
    exact nomatch h3
  · intro w2 d2 h3
    exact nomatch h3

/-- A write below the stream end with positive length satisfies the loop
event invariant. -/
theorem loopEventInv_write (sl : Int) (msk o l : Nat) (h : o < u32 sl) (hl : 0 < l) :
    loopEventInv sl msk (Event.write o l) := by
  unfold loopEventInv
  refine ⟨?_, ?_, ?_⟩
  · intro o2 l2 h2
    exact nomatch h2
  · intro o2 l2 h2
    cases h2
    exact ⟨h, hl⟩
  · intro w2 d2 h2
    exact nomatch h2

/-- A progress callback with divisor `_streamLength` satisfies the loop
event invariant. -/
theorem loopEventInv_onProgress (sl : Int) (msk : Nat) (w : Int) :
    loopEventInv sl msk (Event.onProgress w sl) := by
  unfold loopEventInv
  refine ⟨?_, ?_, ?_⟩
  · intro o2 l2 h2
    exact nomatch h2
  · intro o2 l2 h2
    exact nomatch h2
  · intro w2 d2 h2
    cases h2
    rfl

/-- Unconditional invariant of the loop trace, for every stream behaviour
and every platform behaviour: every event of the block-transfer loop trace
satisfies `loopEventInv`. -/
theorem blockTransferLoop_trace_inv (env : Env) (streamLength : Int) (msk : Nat)
    (type : UPDATER_TYPE) :
    ∀ d written readIdx eraseIdx writeIdx, u32 streamLength - written = d →
    ∀ e ∈ (blockTransferLoop env streamLength msk type written readIdx eraseIdx writeIdx).trace,
      loopEventInv streamLength msk e := by
  intro d
  induction d using Nat.strong_induction_on with
  | _ d IH =>
  intro written readIdx eraseIdx writeIdx hd e he
  rw [blockTransferLoop.eq_def] at he
  by_cases hW : written < u32 streamLength
  · rw [dif_pos hW] at he
    rcases hrb : readBlockFirmwareToBuffer env (u32 streamLength) written readIdx with
      ⟨toWrite, readIdx2, readEvs⟩
    simp only [hrb] at he
    have hread : ∀ e2 ∈ readEvs, ∃ res2, e2 = Event.read written
        (blockLen (u32 streamLength) written) res2 := by
      intro e2 he2
      have hh := readBytesRetry_events env written (blockLen (u32 streamLength) written)
        30 readIdx e2
      rw [readBlockFirmwareToBuffer] at hrb
      rw [hrb] at hh
      exact hh he2
    have hofread : ∀ e2 ∈ readEvs, loopEventInv streamLength msk e2 := by
      intro e2 he2
      rcases hread e2 he2 with ⟨res2, rfl⟩
      exact loopEventInv_read _ _ _ _ _
    by_cases hT : toWrite = 0
    · rw [dif_pos hT] at he
      simp only [List.mem_append, List.mem_cons, List.not_mem_nil, or_false] at he
      rcases he with he | rfl
      · exact hofread e he
      · exact loopEventInv_onError _ _ _
    · rw [dif_neg hT] at he
      have htw : 0 < toWrite := Nat.pos_of_ne_zero hT
      have hlt : u32 streamLength - (written + toWrite) < d := by omega
      by_cases hE : env.eraseOk eraseIdx = false
      · rw [if_pos hE] at he
        simp only [List.mem_append, List.mem_cons, List.not_mem_nil, or_false] at he
        rcases he with he | rfl | rfl
        · exact hofread e he
        · exact loopEventInv_erase_regular _ _ _ hW
        · exact loopEventInv_onError _ _ _
      · rw [if_neg hE] at he
        by_cases hLA : u32 streamLength = written + BLOCK_SIZE_P ∧
            u32 streamLength < u32sub msk BLOCK_SIZE_P
        · rw [if_pos hLA] at he
          by_cases hE2 : env.eraseOk (eraseIdx + 1) = false
          · rw [if_pos hE2] at he
            simp only [List.mem_append, List.mem_cons, List.not_mem_nil, or_false] at he
            rcases he with he | rfl | rfl | rfl
            · exact hofread e he
            · exact loopEventInv_erase_regular _ _ _ hW
            · exact loopEventInv_erase_lookahead _ _ _ hLA.1.symm (by omega) hLA.2
            · exact loopEventInv_onError _ _ _
          · rw [if_neg hE2] at he
            by_cases hWr : env.writeOk writeIdx = false
            · rw [if_pos hWr] at he
              simp only [List.mem_append, List.mem_cons, List.not_mem_nil, or_false] at he
              rcases he with he | rfl | rfl | rfl | rfl
              · exact hofread e he
              · exact loopEventInv_erase_regular _ _ _ hW
              · exact loopEventInv_erase_lookahead _ _ _ hLA.1.symm (by omega) hLA.2
              · exact loopEventInv_write _ _ _ _ hW htw
              · exact loopEventInv_onError _ _ _
            · rw [if_neg hWr] at he
              simp only [List.mem_append, List.mem_cons, List.not_mem_nil, or_false] at he
              rcases he with (he | rfl | rfl | rfl | rfl) | he
              · exact hofread e he
              · exact loopEventInv_erase_regular _ _ _ hW
              · exact loopEventInv_erase_lookahead _ _ _ hLA.1.symm (by omega) hLA.2
              · exact loopEventInv_write _ _ _ _ hW htw
              · exact loopEventInv_onProgress _ _ _
              · exact IH _ hlt (written + toWrite) readIdx2 (eraseIdx + 2)
                  (writeIdx + 1) rfl e he
        · rw [if_neg hLA] at he
          by_cases hWr : env.writeOk writeIdx = false
          · rw [if_pos hWr] at he
            simp only [List.mem_append, List.mem_cons, List.not_mem_nil, or_false] at he
            rcases he with he | rfl | rfl | rfl
            · exact hofread e he
            · exact loopEventInv_erase_regular _ _ _ hW
            · exact loopEventInv_write _ _ _ _ hW htw
            · exact loopEventInv_onError _ _ _
          · rw [if_neg hWr] at he
            simp only [List.mem_append, List.mem_cons, List.not_mem_nil, or_false] at he
            rcases he with (he | rfl | rfl | rfl) | he
            · exact hofread e he
            · exact loopEventInv_erase_regular _ _ _ hW
            · exact loopEventInv_write _ _ _ _ hW htw
            · exact loopEventInv_onProgress _ _ _
            · exact IH _ hlt (written + toWrite) readIdx2 (eraseIdx + 1)
                (writeIdx + 1) rfl e he
  · rw [dif_neg hW] at he
    by_cases hF : type = UPDATER_TYPE.FIRMWARE
    · rw [if_pos hF] at he
      by_cases hB : env.bootOk
      · rw [if_pos hB] at he
        simp only [List.mem_cons, List.not_mem_nil, or_false] at he
        rcases he with rfl | rfl
        · exact loopEventInv_setBoot _ _
        · exact loopEventInv_onEnd _ _
      · rw [if_neg hB] at he
        simp only [List.mem_cons, List.not_mem_nil, or_false] at he
        rcases he with rfl | rfl
        · exact loopEventInv_setBoot _ _
        · exact loopEventInv_onError _ _ _
    · rw [if_neg hF] at he
      simp only [List.mem_cons, List.not_mem_nil, or_false] at he
      rcases he with rfl
      exact loopEventInv_onEnd _ _

/-- The write-call counter is additive over trace concatenation. -/
theorem writeCount_append (a b : List Event) :
    writeCount (a ++ b) = writeCount a + writeCount b := by
  simp [writeCount, List.filter_append]

/-- Full-stream success run of the block-transfer loop: when every
`readBytes` call returns the full requested count and every erase, write
and boot-switch call succeeds, the loop returns `OK`, drives `written` to
the stream end, and issues exactly `ceil(remaining / BLOCK_SIZE_P)` write
calls. -/
theorem blockTransferLoop_full_ok (env : Env) (streamLength : Int) (msk : Nat)
    (type : UPDATER_TYPE)
    (hfull : ∀ n l, env.reads n l = l)
    (herase : ∀ n, env.eraseOk n = true)
    (hwrite : ∀ n, env.writeOk n = true)
    (hboot : env.bootOk = true) :
    ∀ d written readIdx eraseIdx writeIdx, u32 streamLength - written = d →
      written ≤ u32 streamLength →
      (blockTransferLoop env streamLength msk type written readIdx eraseIdx writeIdx).err
          = UPDATER_ERROR.OK ∧
      (blockTransferLoop env streamLength msk type written readIdx eraseIdx writeIdx).written
          = u32 streamLength ∧
      writeCount
          (blockTransferLoop env streamLength msk type written readIdx eraseIdx writeIdx).trace
          = (u32 streamLength - written + (BLOCK_SIZE_P - 1)) / BLOCK_SIZE_P := by
  intro d
  induction d using Nat.strong_induction_on with
  | _ d IH =>
  intro written readIdx eraseIdx writeIdx hd hle
  rw [blockTransferLoop.eq_def]
  by_cases hW : written < u32 streamLength
  · rw [dif_pos hW]
    have hbl : blockLen (u32 streamLength) written ≠ 0 := blockLen_pos _ _ hW
    have heq := readBlockFirmwareToBuffer_full env (u32 streamLength) written readIdx hfull hbl
    simp only [heq]
    rw [dif_neg hbl]
    rw [if_neg (by simp [herase])]
    have hble : blockLen (u32 streamLength) written ≤ BLOCK_SIZE_P ∧
        written + blockLen (u32 streamLength) written ≤ u32 streamLength := by
      have := blockLen_eq_min (u32 streamLength) written (le_of_lt hW)
      simp only [BLOCK_SIZE_P] at this ⊢
      omega
    have hlt : u32 streamLength - (written + blockLen (u32 streamLength) written) < d := by
      have := Nat.pos_of_ne_zero hbl
      omega
    have hle2 : written + blockLen (u32 streamLength) written ≤ u32 streamLength := hble.2
    have harith : 1 + (u32 streamLength - (written + blockLen (u32 streamLength) written)
        + (BLOCK_SIZE_P - 1)) / BLOCK_SIZE_P
        = (u32 streamLength - written + (BLOCK_SIZE_P - 1)) / BLOCK_SIZE_P := by
      have hmin := blockLen_eq_min (u32 streamLength) written (le_of_lt hW)
      simp only [BLOCK_SIZE_P] at hmin ⊢
      omega
    by_cases hLA : u32 streamLength = written + BLOCK_SIZE_P ∧
        u32 streamLength < u32sub msk BLOCK_SIZE_P
    · rw [if_pos hLA]
      rw [if_neg (by simp [herase])]
      rw [if_neg (by simp [hwrite])]
      obtain ⟨ih1, ih2, ih3⟩ := IH _ hlt (written + blockLen (u32 streamLength) written)
        (readIdx + 1) (eraseIdx + 2) (writeIdx + 1) rfl hle2
      refine ⟨ih1, ih2, ?_⟩
      simp only [writeCount_append, ih3]
      simp only [writeCount, isWriteEvent, List.filter, List.length]
      omega
    · rw [if_neg hLA]
      rw [if_neg (by simp [hwrite])]
      obtain ⟨ih1, ih2, ih3⟩ := IH _ hlt (written + blockLen (u32 streamLength) written)
        (readIdx + 1) (eraseIdx + 1) (writeIdx + 1) rfl hle2
      refine ⟨ih1, ih2, ?_⟩
      simp only [writeCount_append, ih3]
      simp only [writeCount, isWriteEvent, List.filter, List.length]
      omega
  · rw [dif_neg hW]
    have hwr : written = u32 streamLength := by omega
    have hz : (u32 streamLength - written + (BLOCK_SIZE_P - 1)) / BLOCK_SIZE_P = 0 := by
      simp only [BLOCK_SIZE_P]
      omega
    by_cases hF : type = UPDATER_TYPE.FIRMWARE
    · rw [if_pos hF, if_pos hboot]
      refine ⟨rfl, hwr, ?_⟩
      simp [writeCount, isWriteEvent, hz]
    · rw [if_neg hF]
      refine ⟨rfl, hwr, ?_⟩
      simp [writeCount, isWriteEvent, hz]

/-- Unsigned 32-bit subtraction without wraparound agrees with `Nat`
subtraction. -/
theorem u32sub_eq (a b : Nat) (hb : b ≤ a) (ha : a < 2 ^ 32) : u32sub a b = a - b := by
  unfold u32sub
  omega

/-- Under a full-delivery stream, every write call of the loop stores
exactly the clipped block length `blockLen` computed for its offset. -/
theorem blockTransferLoop_write_exact (env : Env) (streamLength : Int) (msk : Nat)
    (type : UPDATER_TYPE) (hfull : ∀ n l, env.reads n l = l) :
    ∀ d written readIdx eraseIdx writeIdx, u32 streamLength - written = d →
    ∀ e ∈ (blockTransferLoop env streamLength msk type written readIdx eraseIdx writeIdx).trace,
      ∀ o l, e = Event.write o l → l = blockLen (u32 streamLength) o := by
  intro d
  induction d using Nat.strong_induction_on with
  | _ d IH =>
  intro written readIdx eraseIdx writeIdx hd e he
  rw [blockTransferLoop.eq_def] at he
  by_cases hW : written < u32 streamLength
  · rw [dif_pos hW] at he
    have hbl : blockLen (u32 streamLength) written ≠ 0 := blockLen_pos _ _ hW
    have heq := readBlockFirmwareToBuffer_full env (u32 streamLength) written readIdx hfull hbl
    simp only [heq] at he
    rw [dif_neg hbl] at he
    have hlt : u32 streamLength - (written + blockLen (u32 streamLength) written) < d := by
      have := Nat.pos_of_ne_zero hbl
      omega
    by_cases hE : env.eraseOk eraseIdx = false
    · rw [if_pos hE] at he
      simp only [List.mem_append, List.mem_cons, List.not_mem_nil, or_false] at he
      rcases he with rfl | rfl | rfl
      · intro o l h; exact nomatch h
      · intro o l h; exact nomatch h
      · intro o l h; exact nomatch h
    · rw [if_neg hE] at he
      by_cases hLA : u32 streamLength = written + BLOCK_SIZE_P ∧
          u32 streamLength < u32sub msk BLOCK_SIZE_P
      · rw [if_pos hLA] at he
        by_cases hE2 : env.eraseOk (eraseIdx + 1) = false
        · rw [if_pos hE2] at he
          simp only [List.mem_append, List.mem_cons, List.not_mem_nil, or_false] at he
          rcases he with rfl | rfl | rfl | rfl
          · intro o l h; exact nomatch h
          · intro o l h; exact nomatch h
          · intro o l h; exact nomatch h
          · intro o l h; exact nomatch h
        · rw [if_neg hE2] at he
          by_cases hWr : env.writeOk writeIdx = false
          · rw [if_pos hWr] at he
            simp only [List.mem_append, List.mem_cons, List.not_mem_nil, or_false] at he
            rcases he with rfl | rfl | rfl | rfl | rfl
            · intro o l h; exact nomatch h
            · intro o l h; exact nomatch h
            · intro o l h; exact nomatch h
            · intro o l h
              cases h
              rfl
            · intro o l h; exact nomatch h
          · rw [if_neg hWr] at he
            simp only [List.mem_append, List.mem_cons, List.not_mem_nil, or_false] at he
            rcases he with (rfl | rfl | rfl | rfl | rfl) | he
            · intro o l h; exact nomatch h
            · intro o l h; exact nomatch h
            · intro o l h; exact nomatch h
            · intro o l h
              cases h
              rfl
            · intro o l h; exact nomatch h
            · exact IH _ hlt (written + blockLen (u32 streamLength) written)
                (readIdx + 1) (eraseIdx + 2) (writeIdx + 1) rfl e he
      · rw [if_neg hLA] at he
        by_cases hWr : env.writeOk writeIdx = false
        · rw [if_pos hWr] at he
          simp only [List.mem_append, List.mem_cons, List.not_mem_nil, or_false] at he
          rcases he with rfl | rfl | rfl | rfl
          · intro o l h; exact nomatch h
          · intro o l h; exact nomatch h
          · intro o l h
            cases h
            rfl
          · intro o l h; exact nomatch h
        · rw [if_neg hWr] at he
          simp only [List.mem_append, List.mem_cons, List.not_mem_nil, or_false] at he
          rcases he with (rfl | rfl | rfl | rfl) | he
          · intro o l h; exact nomatch h
          · intro o l h; exact nomatch h
          · intro o l h
            cases h
            rfl
          · intro o l h; exact nomatch h
          · exact IH _ hlt (written + blockLen (u32 streamLength) written)
              (readIdx + 1) (eraseIdx + 1) (writeIdx + 1) rfl e he
  · rw [dif_neg hW] at he
    by_cases hF : type = UPDATER_TYPE.FIRMWARE
    · rw [if_pos hF] at he
      by_cases hB : env.bootOk
      · rw [if_pos hB] at he
        simp only [List.mem_cons, List.not_mem_nil, or_false] at he
        rcases he with rfl | rfl
        · intro o l h; exact nomatch h
        · intro o l h; exact nomatch h
      · rw [if_neg hB] at he
        simp only [List.mem_cons, List.not_mem_nil, or_false] at he
        rcases he with rfl | rfl
        · intro o l h; exact nomatch h
        · intro o l h; exact nomatch h
    · rw [if_neg hF] at he
      simp only [List.mem_cons, List.not_mem_nil, or_false] at he
      rcases he with rfl
      intro o l h; exact nomatch h

/-- Under a full-delivery stream, the offsets stay block-aligned and no
erase call of the loop — regular or look-ahead — extends past the capacity
bound `msk` (hypotheses: `msk` is a `uint32` multiple of the block size and
the stream fits below it, as established by the space check). -/
theorem blockTransferLoop_erase_bound (env : Env) (streamLength : Int) (msk : Nat)
    (type : UPDATER_TYPE) (hfull : ∀ n l, env.reads n l = l)
    (hmsk : msk % BLOCK_SIZE_P = 0) (hmsk32 : msk < 2 ^ 32)
    (hfits : u32 streamLength ≤ msk) :
    ∀ d written readIdx eraseIdx writeIdx, u32 streamLength - written = d →
      (written % BLOCK_SIZE_P = 0 ∨ u32 streamLength ≤ written) →
    ∀ e ∈ (blockTransferLoop env streamLength msk type written readIdx eraseIdx writeIdx).trace,
      ∀ o l, e = Event.erase o l → o + l ≤ msk := by
  intro d
  induction d using Nat.strong_induction_on with
  | _ d IH =>
  intro written readIdx eraseIdx writeIdx hd hal e he
  rw [blockTransferLoop.eq_def] at he
  by_cases hW : written < u32 streamLength
  · rw [dif_pos hW] at he
    have hbl : blockLen (u32 streamLength) written ≠ 0 := blockLen_pos _ _ hW
    have heq := readBlockFirmwareToBuffer_full env (u32 streamLength) written readIdx hfull hbl
    simp only [heq] at he
    rw [dif_neg hbl] at he
    have hlt : u32 streamLength - (written + blockLen (u32 streamLength) written) < d := by
      have := Nat.pos_of_ne_zero hbl
      omega
    have halign : written % BLOCK_SIZE_P = 0 := by
      rcases hal with h | h
      · exact h
      · omega
    have hreg : written + BLOCK_SIZE_P ≤ msk := by
      simp only [BLOCK_SIZE_P] at halign hmsk ⊢
      omega
    have hal2 : (written + blockLen (u32 streamLength) written) % BLOCK_SIZE_P = 0 ∨
        u32 streamLength ≤ written + blockLen (u32 streamLength) written := by
      have hmin := blockLen_eq_min (u32 streamLength) written (le_of_lt hW)
      simp only [BLOCK_SIZE_P] at hmin halign ⊢
      by_cases hrem : u32 streamLength - written < 4096
      · right
        omega
      · left
        omega
    by_cases hE : env.eraseOk eraseIdx = false
    · rw [if_pos hE] at he
      simp only [List.mem_append, List.mem_cons, List.not_mem_nil, or_false] at he
      rcases he with rfl | rfl | rfl
      · intro o l h; exact nomatch h
      · intro o l h
        cases h
        exact hreg
      · intro o l h; exact nomatch h
    · rw [if_neg hE] at he
      by_cases hLA : u32 streamLength = written + BLOCK_SIZE_P ∧
          u32 streamLength < u32sub msk BLOCK_SIZE_P
      · rw [if_pos hLA] at he
        have hla2 : (written + BLOCK_SIZE_P) + BLOCK_SIZE_P ≤ msk := by
          have hs : u32sub msk BLOCK_SIZE_P = msk - BLOCK_SIZE_P := by
            refine u32sub_eq msk BLOCK_SIZE_P ?_ hmsk32
            omega
          rw [hs] at hLA
          omega
        by_cases hE2 : env.eraseOk (eraseIdx + 1) = false
        · rw [if_pos hE2] at he
          simp only [List.mem_append, List.mem_cons, List.not_mem_nil, or_false] at he
          rcases he with rfl | rfl | rfl | rfl
          · intro o l h; exact nomatch h
          · intro o l h
            cases h
            exact hreg
          · intro o l h
            cases h
            exact hla2
          · intro o l h; exact nomatch h
        · rw [if_neg hE2] at he
          by_cases hWr : env.writeOk writeIdx = false
          · rw [if_pos hWr] at he
            simp only [List.mem_append, List.mem_cons, List.not_mem_nil, or_false] at he
            rcases he with rfl | rfl | rfl | rfl | rfl
            · intro o l h; exact nomatch h
            · intro o l h
              cases h
              exact hreg
            · intro o l h
              cases h
              exact hla2
            · intro o l h; exact nomatch h
            · intro o l h; exact nomatch h
          · rw [if_neg hWr] at he
            simp only [List.mem_append, List.mem_cons, List.not_mem_nil, or_false] at he
            rcases he with (rfl | rfl | rfl | rfl | rfl) | he
            · intro o l h; exact nomatch h
            · intro o l h
              cases h
              exact hreg
            · intro o l h
              cases h
              exact hla2
            · intro o l h; exact nomatch h
            · intro o l h; exact nomatch h
            · exact IH _ hlt (written + blockLen (u32 streamLength) written)
                (readIdx + 1) (eraseIdx + 2) (writeIdx + 1) rfl hal2 e he
      · rw [if_neg hLA] at he
        by_cases hWr : env.writeOk writeIdx = false
        · rw [if_pos hWr] at he
          simp only [List.mem_append, List.mem_cons, List.not_mem_nil, or_false] at he
          rcases he with rfl | rfl | rfl | rfl
          · intro o l h; exact nomatch h
          · intro o l h
            cases h
            exact hreg
          · intro o l h; exact nomatch h
          · intro o l h; exact nomatch h
        · rw [if_neg hWr] at he
          simp only [List.mem_append, List.mem_cons, List.not_mem_nil, or_false] at he
          rcases he with (rfl | rfl | rfl | rfl) | he
          · intro o l h; exact nomatch h
          · intro o l h
            cases h
            exact hreg
          · intro o l h; exact nomatch h
          · intro o l h; exact nomatch h
          · exact IH _ hlt (written + blockLen (u32 streamLength) written)
              (readIdx + 1) (eraseIdx + 1) (writeIdx + 1) rfl hal2 e he
  · rw [dif_neg hW] at he
    by_cases hF : type = UPDATER_TYPE.FIRMWARE
    · rw [if_pos hF] at he
      by_cases hB : env.bootOk
      · rw [if_pos hB] at he
        simp only [List.mem_cons, List.not_mem_nil, or_false] at he
        rcases he with rfl | rfl
        · intro o l h; exact nomatch h
        · intro o l h; exact nomatch h
      · rw [if_neg hB] at he
        simp only [List.mem_cons, List.not_mem_nil, or_false] at he
        rcases he with rfl | rfl
        · intro o l h; exact nomatch h
        · intro o l h; exact nomatch h
    · rw [if_neg hF] at he
      simp only [List.mem_cons, List.not_mem_nil, or_false] at he
      rcases he with rfl
      intro o l h; exact nomatch h

/-- Under any stream that never returns more bytes than requested, every
write call of the loop stores at most the clipped block length computed
for its offset. -/
theorem blockTransferLoop_write_le (env : Env) (streamLength : Int) (msk : Nat)
    (type : UPDATER_TYPE) (hconf : ∀ n l, env.reads n l ≤ l) :
    ∀ d written readIdx eraseIdx writeIdx, u32 streamLength - written = d →
    ∀ e ∈ (blockTransferLoop env streamLength msk type written readIdx eraseIdx writeIdx).trace,
      ∀ o l, e = Event.write o l → l ≤ blockLen (u32 streamLength) o := by
  intro d
  induction d using Nat.strong_induction_on with
  | _ d IH =>
  intro written readIdx eraseIdx writeIdx hd e he
  rw [blockTransferLoop.eq_def] at he
  by_cases hW : written < u32 streamLength
  · rw [dif_pos hW] at he
    rcases hrb : readBlockFirmwareToBuffer env (u32 streamLength) written readIdx with
      ⟨toWrite, readIdx2, readEvs⟩
    simp only [hrb] at he
    have htwle : toWrite ≤ blockLen (u32 streamLength) written := by
      have hh := readBytesRetry_le env written (blockLen (u32 streamLength) written)
        hconf 30 readIdx
      rw [readBlockFirmwareToBuffer] at hrb
      rw [hrb] at hh
      exact hh
    by_cases hT : toWrite = 0
    · rw [dif_pos hT] at he
      simp only [List.mem_append, List.mem_cons, List.not_mem_nil, or_false] at he
      rcases he with he | rfl
      · rcases readBytesRetry_events env written (blockLen (u32 streamLength) written)
          30 readIdx e (by rw [readBlockFirmwareToBuffer] at hrb; rw [hrb]; exact he)
          with ⟨res2, rfl⟩
        intro o l h; exact nomatch h
      · intro o l h; exact nomatch h
    · rw [dif_neg hT] at he
      have hlt : u32 streamLength - (written + toWrite) < d := by
        have := Nat.pos_of_ne_zero hT
        omega
      have hofread : ∀ e2 ∈ readEvs, ∀ o l, e2 = Event.write o l →
          l ≤ blockLen (u32 streamLength) o := by
        intro e2 he2
        rcases readBytesRetry_events env written (blockLen (u32 streamLength) written)
          30 readIdx e2 (by rw [readBlockFirmwareToBuffer] at hrb; rw [hrb]; exact he2)
          with ⟨res2, rfl⟩
        intro o l h; exact nomatch h
      by_cases hE : env.eraseOk eraseIdx = false
      · rw [if_pos hE] at he
        simp only [List.mem_append, List.mem_cons, List.not_mem_nil, or_false] at he
        rcases he with he | rfl | rfl
        · exact hofread e he
        · intro o l h; exact nomatch h
        · intro o l h; exact nomatch h
      · rw [if_neg hE] at he
        by_cases hLA : u32 streamLength = written + BLOCK_SIZE_P ∧
            u32 streamLength < u32sub msk BLOCK_SIZE_P
        · rw [if_pos hLA] at he
          by_cases hE2 : env.eraseOk (eraseIdx + 1) = false
          · rw [if_pos hE2] at he
            simp only [List.mem_append, List.mem_cons, List.not_mem_nil, or_false] at he
            rcases he with he | rfl | rfl | rfl
            · exact hofread e he
            · intro o l h; exact nomatch h
            · intro o l h; exact nomatch h
            · intro o l h; exact nomatch h
          · rw [if_neg hE2] at he
            by_cases hWr : env.writeOk writeIdx = false
            · rw [if_pos hWr] at he
              simp only [List.mem_append, List.mem_cons, List.not_mem_nil, or_false] at he
              rcases he with he | rfl | rfl | rfl | rfl
              · exact hofread e he
              · intro o l h; exact nomatch h
              · intro o l h; exact nomatch h
              · intro o l h
                cases h
                exact htwle
              · intro o l h; exact nomatch h
            · rw [if_neg hWr] at he
              simp only [List.mem_append, List.mem_cons, List.not_mem_nil, or_false] at he
              rcases he with (he | rfl | rfl | rfl | rfl) | he
              · exact hofread e he
              · intro o l h; exact nomatch h
              · intro o l h; exact nomatch h
              · intro o l h
                cases h
                exact htwle
              · intro o l h; exact nomatch h
              · exact IH _ hlt (written + toWrite) readIdx2 (eraseIdx + 2)
                  (writeIdx + 1) rfl e he
        · rw [if_neg hLA] at he
          by_cases hWr : env.writeOk writeIdx = false
          · rw [if_pos hWr] at he
            simp only [List.mem_append, List.mem_cons, List.not_mem_nil, or_false] at he
            rcases he with he | rfl | rfl | rfl
            · exact hofread e he
            · intro o l h; exact nomatch h
            · intro o l h
              cases h
              exact htwle
            · intro o l h; exact nomatch h
          · rw [if_neg hWr] at he
            simp only [List.mem_append, List.mem_cons, List.not_mem_nil, or_false] at he
            rcases he with (he | rfl | rfl | rfl) | he
            · exact hofread e he
            · intro o l h; exact nomatch h
            · intro o l h
              cases h
              exact htwle
            · intro o l h; exact nomatch h
            · exact IH _ hlt (written + toWrite) readIdx2 (eraseIdx + 1)
                (writeIdx + 1) rfl e he
  · rw [dif_neg hW] at he
    by_cases hF : type = UPDATER_TYPE.FIRMWARE
    · rw [if_pos hF] at he
      by_cases hB : env.bootOk
      · rw [if_pos hB] at he
        simp only [List.mem_cons, List.not_mem_nil, or_false] at he
        rcases he with rfl | rfl
        · intro o l h; exact nomatch h
        · intro o l h; exact nomatch h
      · rw [if_neg hB] at he
        simp only [List.mem_cons, List.not_mem_nil, or_false] at he
        rcases he with rfl | rfl
        · intro o l h; exact nomatch h
        · intro o l h; exact nomatch h
    · rw [if_neg hF] at he
      simp only [List.mem_cons, List.not_mem_nil, or_false] at he
      rcases he with rfl
      intro o l h; exact nomatch h

/-- When every `readBytes` call returns zero bytes, the first loop
iteration exhausts all 30 retry attempts and aborts with `READ_FAILED`,
and the trace holds exactly those 30 read calls plus the error callback. -/
theorem blockTransferLoop_zero_reads (env : Env) (streamLength : Int) (msk : Nat)
    (type : UPDATER_TYPE) (written readIdx eraseIdx writeIdx : Nat)
    (hzero : ∀ n l, env.reads n l = 0) (hW : written < u32 streamLength) :
    (blockTransferLoop env streamLength msk type written readIdx eraseIdx writeIdx).err
        = UPDATER_ERROR.READ_FAILED ∧
    readCount
        (blockTransferLoop env streamLength msk type written readIdx eraseIdx writeIdx).trace
        = 30 := by
  rw [blockTransferLoop.eq_def]
  rw [dif_pos hW]
  rcases hrb : readBlockFirmwareToBuffer env (u32 streamLength) written readIdx with
    ⟨toWrite, readIdx2, readEvs⟩
  have hrb2 : readBytesRetry env written (blockLen (u32 streamLength) written) readIdx 30
      = (toWrite, readIdx2, readEvs) := hrb
  have hzz := readBytesRetry_all_zero env written (blockLen (u32 streamLength) written)
    30 readIdx (fun j _ => hzero (readIdx + j) _)
  rw [hrb2] at hzz
  simp only at hzz
  have ht0 : toWrite = 0 := hzz.1
  have hlen : readEvs.length = 30 := hzz.2
  have hallread : ∀ e ∈ readEvs, isReadEvent e = true := by
    intro e he
    have hh := readBytesRetry_events env written (blockLen (u32 streamLength) written)
      30 readIdx e
    rw [hrb2] at hh
    rcases hh he with ⟨res2, rfl⟩
    rfl
  simp only [hrb]
  rw [dif_pos ht0]
  refine ⟨rfl, ?_⟩
  simp only [readCount, List.filter_append]
  rw [List.filter_eq_self.mpr hallread]
  simp [hlen, isReadEvent]

/-! Lemmas about the entry points of `startUpdate`. -/

/-- A non-negative `int` in range is reinterpreted unchanged. -/
theorem u32_toNat (n : Int) (h0 : 0 ≤ n) (h : n < 2 ^ 32) : u32 n = n.toNat := by
  unfold u32
  omega

/-- A negative `int` reinterprets to at least `2^31` (value taken modulo
`2^32`). -/
theorem u32_neg (n : Int) (hn : n < 0) (h : -(2 ^ 31) ≤ n) : 2 ^ 31 ≤ u32 n := by
  unfold u32
  omega

/-- The space bound is the free space rounded down to a block multiple. -/
theorem maxSketchSpace_mod (env : Env) : maxSketchSpace env % BLOCK_SIZE_P = 0 := by
  simp only [maxSketchSpace, BLOCK_SIZE_P]
  omega

/-- The space bound never exceeds the reported free space. -/
theorem maxSketchSpace_le (env : Env) : maxSketchSpace env ≤ env.freeSketchSpace := by
  simp only [maxSketchSpace]
  omega

/-- When the space check and the partition lookup succeed, `startUpdate`
runs `callOnStart`, `callOnProgress(0, _streamLength)` and then the
block-transfer loop from `written = 0`. -/
theorem startUpdate_pass (env : Env) (streamLength : Int) (type : UPDATER_TYPE)
    (hsp : ¬ u32 streamLength > maxSketchSpace env)
    (hpa : partitionAvailable env type = true) :
    startUpdate env streamLength type =
      ⟨(blockTransferLoop env streamLength (maxSketchSpace env) type 0 0 0 0).err,
       (blockTransferLoop env streamLength (maxSketchSpace env) type 0 0 0 0).written,
       Event.onStart :: Event.onProgress 0 streamLength ::
         (blockTransferLoop env streamLength (maxSketchSpace env) type 0 0 0 0).trace⟩ := by
  rw [startUpdate]
  rw [if_neg hsp, if_neg (by simp [hpa])]

/-- When the space check fails, `startUpdate` aborts at once with
`NO_ENOUGH_SPACE`; the only event is the error callback. -/
theorem startUpdate_noSpace (env : Env) (streamLength : Int) (type : UPDATER_TYPE)
    (hsp : u32 streamLength > maxSketchSpace env) :
    startUpdate env streamLength type =
      ⟨UPDATER_ERROR.NO_ENOUGH_SPACE, 0, [Event.onError UPDATER_ERROR.NO_ENOUGH_SPACE]⟩ := by
  rw [startUpdate]
  rw [if_pos hsp]

/-- When the space check passes but the partition lookup fails,
`startUpdate` aborts with `NO_PARTITION_AVAILABLE`; the only event is the
error callback. -/
theorem startUpdate_noPartition (env : Env) (streamLength : Int) (type : UPDATER_TYPE)
    (hsp : ¬ u32 streamLength > maxSketchSpace env)
    (hpa : partitionAvailable env type = false) :
    startUpdate env streamLength type =
      ⟨UPDATER_ERROR.NO_PARTITION_AVAILABLE, 0,
        [Event.onError UPDATER_ERROR.NO_PARTITION_AVAILABLE]⟩ := by
  rw [startUpdate]
  rw [if_neg hsp, if_pos hpa]

/-! Claim theorems. -/

/-- C4: for every streamLength strictly greater than maxSketchSpace (the
free application space rounded down to a multiple of the 4096-byte block
size), `Updater::startUpdate` returns `NO_ENOUGH_SPACE` and no erase call
and no write call on the partition occurs. -/
theorem claim_C4 (env : Env) (streamLength : Int) (type : UPDATER_TYPE)
    (hgt : (maxSketchSpace env : Int) < streamLength) (hint : streamLength < 2 ^ 31) :
    (startUpdate env streamLength type).err = UPDATER_ERROR.NO_ENOUGH_SPACE ∧
    ∀ e ∈ (startUpdate env streamLength type).trace, isDestructiveEvent e = false := by
  have hsp : u32 streamLength > maxSketchSpace env := by
    have h0 : (0 : Int) ≤ streamLength := by
      have := Int.ofNat_nonneg (maxSketchSpace env)
      omega
    rw [u32_toNat streamLength h0 (by omega)]
    omega
  rw [startUpdate_noSpace env streamLength type hsp]
  refine ⟨rfl, ?_⟩
  intro e he
  simp only [List.mem_singleton] at he
  subst he
  rfl

/-- C4 witness: a 30000-byte stream against 8192 bytes of usable space. -/
theorem claim_C4_witness :
    (startUpdate envFull8192 30000 UPDATER_TYPE.FIRMWARE).err
        = UPDATER_ERROR.NO_ENOUGH_SPACE ∧
    ∀ e ∈ (startUpdate envFull8192 30000 UPDATER_TYPE.FIRMWARE).trace,
      isDestructiveEvent e = false :=
  claim_C4 envFull8192 30000 UPDATER_TYPE.FIRMWARE
    (by simp [maxSketchSpace, envFull8192, BLOCK_SIZE_P]) (by norm_num)

/-- C8: for every update type, if the platform partition lookup returns no
partition of the requested kind (with the space check passed so that the
lookup is reached), `Updater::startUpdate` returns `NO_PARTITION_AVAILABLE`
and the `onStart` callback is never invoked. -/
theorem claim_C8 (env : Env) (streamLength : Int) (type : UPDATER_TYPE)
    (hsp : u32 streamLength ≤ maxSketchSpace env)
    (hpa : partitionAvailable env type = false) :
    (startUpdate env streamLength type).err = UPDATER_ERROR.NO_PARTITION_AVAILABLE ∧
    Event.onStart ∉ (startUpdate env streamLength type).trace := by
  rw [startUpdate_noPartition env streamLength type (by omega) hpa]
  exact ⟨rfl, by decide⟩

/-- C8 witness: a device without any updatable partition. -/
theorem claim_C8_witness :
    ((startUpdate envNoPartition 4096 UPDATER_TYPE.FIRMWARE).err
        = UPDATER_ERROR.NO_PARTITION_AVAILABLE ∧
      Event.onStart ∉ (startUpdate envNoPartition 4096 UPDATER_TYPE.FIRMWARE).trace) ∧
    ((startUpdate envNoPartition 4096 UPDATER_TYPE.SPIFFS).err
        = UPDATER_ERROR.NO_PARTITION_AVAILABLE ∧
      Event.onStart ∉ (startUpdate envNoPartition 4096 UPDATER_TYPE.SPIFFS).trace) :=
  ⟨claim_C8 envNoPartition 4096 UPDATER_TYPE.FIRMWARE
      (by simp [maxSketchSpace, envNoPartition, u32, BLOCK_SIZE_P]) rfl,
    claim_C8 envNoPartition 4096 UPDATER_TYPE.SPIFFS
      (by simp [maxSketchSpace, envNoPartition, u32, BLOCK_SIZE_P]) rfl⟩

/-- C9: the progress computation in `callOnProgress` divides
`written * 100` by the total length without a guard, and `startUpdate`
invokes it with `(0, streamLength)` before the loop; hence for
`streamLength = 0` (which passes the space check) a progress call with
divisor 0 — a division by zero — is reached whenever a partition is
available, while for `streamLength > 0` every progress call in the run
carries the non-zero divisor `streamLength`. -/
theorem claim_C9 (env : Env) (type : UPDATER_TYPE) :
    (partitionAvailable env type = true →
      Event.onProgress 0 0 ∈ (startUpdate env 0 type).trace) ∧
    (∀ streamLength : Int, 0 < streamLength →
      ∀ w d, Event.onProgress w d ∈ (startUpdate env streamLength type).trace →
        d = streamLength ∧ d ≠ 0) := by
  constructor
  · intro hpa
    rw [startUpdate_pass env 0 type (by simp [u32]) hpa]
    simp
  · intro streamLength hpos w d hmem
    by_cases hsp : u32 streamLength > maxSketchSpace env
    · rw [startUpdate_noSpace env streamLength type hsp] at hmem
      simp at hmem
    · by_cases hpa : partitionAvailable env type = true
      · rw [startUpdate_pass env streamLength type hsp hpa] at hmem
        simp only [List.mem_cons] at hmem
        rcases hmem with h | h | h
        · exact nomatch h
        · cases h
          exact ⟨rfl, by omega⟩
        · have := (blockTransferLoop_trace_inv env streamLength (maxSketchSpace env) type
            (u32 streamLength - 0) 0 0 0 0 rfl (Event.onProgress w d) h).2.2 w d rfl
          exact ⟨this, by omega⟩
      · rw [startUpdate_noPartition env streamLength type hsp
          (by simpa using hpa)] at hmem
        simp at hmem

/-- C9 witness: with both partitions present and a zero-length stream the
zero-divisor progress call is reached; with a 4096-byte stream the first
progress call carries divisor 4096. -/
theorem claim_C9_witness :
    (Event.onProgress 0 0 ∈ (startUpdate envFull8192 0 UPDATER_TYPE.FIRMWARE).trace) ∧
    ((4096 : Int) = 4096 ∧ (4096 : Int) ≠ 0) := by
  constructor
  · exact (claim_C9 envFull8192 UPDATER_TYPE.FIRMWARE).1 rfl
  · refine (claim_C9 envFull8192 UPDATER_TYPE.FIRMWARE).2 4096 (by norm_num) 0 4096 ?_
    rw [startUpdate_pass envFull8192 4096 UPDATER_TYPE.FIRMWARE
      (by simp [u32, maxSketchSpace, envFull8192, BLOCK_SIZE_P]) rfl]
    simp

/-- C10 counterexample: with the largest possible free sketch space
(`0xFFFFFFFF`, so `maxSketchSpace = 2^32 - 4096`), the negative stream
length −4096 reinterprets to exactly `maxSketchSpace`, the space check
passes, and the run reaches a destructive erase call instead of returning
`NO_ENOUGH_SPACE`. -/
theorem claim_C10_counterexample :
    (startUpdate envHugeSpace (-4096) UPDATER_TYPE.FIRMWARE).err
        ≠ UPDATER_ERROR.NO_ENOUGH_SPACE ∧
    Event.erase 0 BLOCK_SIZE_P ∈ (startUpdate envHugeSpace (-4096) UPDATER_TYPE.FIRMWARE).trace := by
  constructor <;>
  simp [startUpdate, blockTransferLoop, readBlockFirmwareToBuffer, readBytesRetry,
    blockLen, maxSketchSpace, partitionAvailable, envHugeSpace, u32, u32sub, BLOCK_SIZE_P]

/-- C10 (amended): for every negative streamLength, the signed value is
converted to unsigned in the comparison against maxSketchSpace (value
taken modulo `2^32`, hence at least `2^31`), so as long as the free sketch
space is below `2^31` — in particular on any real device — the call
returns `NO_ENOUGH_SPACE` before any destructive operation. -/
theorem claim_C10 (env : Env) (streamLength : Int) (type : UPDATER_TYPE)
    (hneg : streamLength < 0) (hint : -(2 ^ 31) ≤ streamLength)
    (hfss : env.freeSketchSpace < 2 ^ 31) :
    2 ^ 31 ≤ u32 streamLength ∧
    (startUpdate env streamLength type).err = UPDATER_ERROR.NO_ENOUGH_SPACE ∧
    ∀ e ∈ (startUpdate env streamLength type).trace, isDestructiveEvent e = false := by
  have hbig : 2 ^ 31 ≤ u32 streamLength := u32_neg streamLength hneg hint
  have hsp : u32 streamLength > maxSketchSpace env := by
    have := maxSketchSpace_le env
    omega
  rw [startUpdate_noSpace env streamLength type hsp]
  refine ⟨hbig, rfl, ?_⟩
  intro e he
  simp only [List.mem_singleton] at he
  subst he
  rfl

/-- C10 witness: streamLength −1 against one megabyte of free space. -/
theorem claim_C10_witness :
    2 ^ 31 ≤ u32 (-1) ∧
    (startUpdate envFull8192 (-1) UPDATER_TYPE.SPIFFS).err
        = UPDATER_ERROR.NO_ENOUGH_SPACE ∧
    ∀ e ∈ (startUpdate envFull8192 (-1) UPDATER_TYPE.SPIFFS).trace,
      isDestructiveEvent e = false :=
  claim_C10 envFull8192 (-1) UPDATER_TYPE.SPIFFS (by norm_num) (by norm_num)
    (by norm_num [envFull8192])

/-- C1: for every streamLength with `0 < streamLength ≤ maxSketchSpace`
and a partition available, if every `readBytes` call in the block-transfer
loop returns the full requested length (and the flash and boot-switch
operations succeed), `Updater::startUpdate` returns `OK`, the final
`written` counter equals streamLength, and the number of
`esp_partition_write` calls equals `ceil(streamLength / 4096)`. -/
theorem claim_C1 (env : Env) (streamLength : Int) (type : UPDATER_TYPE)
    (hpos : 0 < streamLength)
    (hle : streamLength ≤ (maxSketchSpace env : Int))
    (hpa : partitionAvailable env type = true)
    (hfull : ∀ n l, env.reads n l = l)
    (herase : ∀ n, env.eraseOk n = true)
    (hwrite : ∀ n, env.writeOk n = true)
    (hboot : env.bootOk = true)
    (hfss : env.freeSketchSpace < 2 ^ 32) :
    (startUpdate env streamLength type).err = UPDATER_ERROR.OK ∧
    (startUpdate env streamLength type).written = streamLength.toNat ∧
    writeCount (startUpdate env streamLength type).trace
      = (streamLength.toNat + (BLOCK_SIZE_P - 1)) / BLOCK_SIZE_P := by
  have hmle := maxSketchSpace_le env
  have hcast : (maxSketchSpace env : Int) < 2 ^ 32 := by
    have h1 : (maxSketchSpace env : Int) ≤ (env.freeSketchSpace : Int) := by
      exact_mod_cast hmle
    have h2 : (env.freeSketchSpace : Int) < 2 ^ 32 := by exact_mod_cast hfss
    omega
  have hu : u32 streamLength = streamLength.toNat :=
    u32_toNat streamLength (by omega) (by omega)
  have hsp : ¬ u32 streamLength > maxSketchSpace env := by
    rw [hu]
    omega
  rw [startUpdate_pass env streamLength type hsp hpa]
  obtain ⟨h1, h2, h3⟩ := blockTransferLoop_full_ok env streamLength (maxSketchSpace env)
    type hfull herase hwrite hboot (u32 streamLength - 0) 0 0 0 0 rfl (Nat.zero_le _)
  refine ⟨h1, by rw [← hu]; exact h2, ?_⟩
  have hhead : writeCount (Event.onStart :: Event.onProgress 0 streamLength ::
      (blockTransferLoop env streamLength (maxSketchSpace env) type 0 0 0 0).trace)
      = writeCount (blockTransferLoop env streamLength (maxSketchSpace env) type 0 0 0 0).trace := by
    simp [writeCount, isWriteEvent]
  rw [hhead, h3, hu]
  simp

/-- C1 witness: a 10000-byte stream against 20480 bytes of usable space
completes with 3 write calls (4096 + 4096 + 1808 bytes). -/
theorem claim_C1_witness :
    (startUpdate envFull20480 10000 UPDATER_TYPE.FIRMWARE).err = UPDATER_ERROR.OK ∧
    (startUpdate envFull20480 10000 UPDATER_TYPE.FIRMWARE).written = 10000 ∧
    writeCount (startUpdate envFull20480 10000 UPDATER_TYPE.FIRMWARE).trace = 3 := by
  obtain ⟨h1, h2, h3⟩ := claim_C1 envFull20480 10000 UPDATER_TYPE.FIRMWARE (by norm_num)
    (by norm_num [maxSketchSpace, envFull20480, BLOCK_SIZE_P]) rfl (fun n l => rfl)
    (fun n => rfl) (fun n => rfl) rfl (by norm_num [envFull20480])
  refine ⟨h1, by simpa using h2, ?_⟩
  rw [h3]
  decide

/-- C2: for every block read in the block-transfer loop, if fewer than 30
consecutive `readBytes` calls return zero bytes before one returns a
non-zero count, the block read succeeds (returns that non-zero count, so
the loop continues); and when every `readBytes` call returns zero bytes,
`startUpdate` fails with `READ_FAILED` after exactly 30 read attempts. -/
theorem claim_C2 :
    (∀ (env : Env) (streamLenU offset readIdx k : Nat),
      k < 30 →
      (∀ j, j < k → env.reads (readIdx + j) (blockLen streamLenU offset) = 0) →
      env.reads (readIdx + k) (blockLen streamLenU offset) ≠ 0 →
      (readBlockFirmwareToBuffer env streamLenU offset readIdx).1
          = env.reads (readIdx + k) (blockLen streamLenU offset) ∧
      (readBlockFirmwareToBuffer env streamLenU offset readIdx).1 ≠ 0) ∧
    (∀ (env : Env) (streamLength : Int) (type : UPDATER_TYPE),
      (∀ n l, env.reads n l = 0) → 0 < u32 streamLength →
      u32 streamLength ≤ maxSketchSpace env → partitionAvailable env type = true →
      (startUpdate env streamLength type).err = UPDATER_ERROR.READ_FAILED ∧
      readCount (startUpdate env streamLength type).trace = 30) := by
  constructor
  · intro env slu offset readIdx k hk hzero hnz
    have h := readBytesRetry_first_nonzero env offset (blockLen slu offset)
      k 30 readIdx hk hzero hnz
    rw [readBlockFirmwareToBuffer]
    refine ⟨h, ?_⟩
    rw [h]
    exact hnz
  · intro env streamLength type hzero hposlen hsp hpa
    rw [startUpdate_pass env streamLength type (by omega) hpa]
    obtain ⟨h1, h2⟩ := blockTransferLoop_zero_reads env streamLength (maxSketchSpace env)
      type 0 0 0 0 hzero hposlen
    exact ⟨h1, by simpa [readCount, isReadEvent] using h2⟩

/-- C2 witness: two stalled reads followed by a full read succeed; an
always-stalling stream makes `startUpdate` fail with `READ_FAILED` after
30 read calls. -/
theorem claim_C2_witness :
    ((readBlockFirmwareToBuffer envRetry2 8192 0 0).1
        = envRetry2.reads (0 + 2) (blockLen 8192 0) ∧
      (readBlockFirmwareToBuffer envRetry2 8192 0 0).1 ≠ 0) ∧
    ((startUpdate envZeroReads 4096 UPDATER_TYPE.FIRMWARE).err
        = UPDATER_ERROR.READ_FAILED ∧
      readCount (startUpdate envZeroReads 4096 UPDATER_TYPE.FIRMWARE).trace = 30) :=
  ⟨claim_C2.1 envRetry2 8192 0 0 2 (by norm_num)
      (fun j hj => by interval_cases j <;> rfl) (by decide),
    claim_C2.2 envZeroReads 4096 UPDATER_TYPE.FIRMWARE (fun n l => rfl)
      (by decide) (by decide) rfl⟩

/-- C3 counterexample: with short non-zero reads the `written` offset
loses its block alignment, and the regular pre-write erase issued at
offset 8191 covers `[8191, 8191 + 4096)`, which extends past the partition
capacity `maxSketchSpace = 8192`; so it is not true that no erase call
ever extends past the capacity. -/
theorem claim_C3_counterexample :
    ∃ e ∈ (startUpdate envShortC3 8192 UPDATER_TYPE.FIRMWARE).trace,
      ∃ o l, e = Event.erase o l ∧ maxSketchSpace envShortC3 < o + l := by
  refine ⟨Event.erase 8191 4096, ?_, 8191, 4096, rfl, ?_⟩
  · simp [startUpdate, blockTransferLoop, readBlockFirmwareToBuffer, readBytesRetry,
      blockLen, maxSketchSpace, partitionAvailable, envShortC3, u32, u32sub, BLOCK_SIZE_P]
  · simp [maxSketchSpace, envShortC3, BLOCK_SIZE_P]

/-- C3 (amended): in every iteration of the block-transfer loop, the
look-ahead pre-erase of the block range following the current one is
performed only when the current block ends exactly at the stream end and
sufficient partition capacity remains beyond it — in particular every
erase call at or beyond the stream end starts exactly at the stream end
and stays within `maxSketchSpace` — and, provided every read returns the
full requested length (so that offsets stay block-aligned), no erase call
at all, regular or look-ahead, extends past `maxSketchSpace`. -/
theorem claim_C3 (env : Env) (streamLength : Int) (type : UPDATER_TYPE)
    (hfss : env.freeSketchSpace < 2 ^ 32) :
    (∀ e ∈ (startUpdate env streamLength type).trace, ∀ o l, e = Event.erase o l →
      l = BLOCK_SIZE_P ∧
      (u32 streamLength ≤ o →
        o = u32 streamLength ∧ o + BLOCK_SIZE_P ≤ maxSketchSpace env)) ∧
    ((∀ n l, env.reads n l = l) →
      ∀ e ∈ (startUpdate env streamLength type).trace, ∀ o l, e = Event.erase o l →
        o + l ≤ maxSketchSpace env) := by
  have hmsk32 : maxSketchSpace env < 2 ^ 32 := lt_of_le_of_lt (maxSketchSpace_le env) hfss
  by_cases hsp : u32 streamLength > maxSketchSpace env
  · rw [startUpdate_noSpace env streamLength type hsp]
    constructor
    · intro e he o l h
      simp only [List.mem_singleton] at he
      subst he
      exact nomatch h
    · intro hfull e he o l h
      simp only [List.mem_singleton] at he
      subst he
      exact nomatch h
  · by_cases hpa : partitionAvailable env type = true
    · rw [startUpdate_pass env streamLength type hsp hpa]
      constructor
      · intro e he o l h
        simp only [List.mem_cons] at he
        rcases he with rfl | rfl | he
        · exact nomatch h
        · exact nomatch h
        · have hinv := (blockTransferLoop_trace_inv env streamLength (maxSketchSpace env)
            type (u32 streamLength - 0) 0 0 0 0 rfl e he).1 o l h
          refine ⟨hinv.1, fun hge => ?_⟩
          rcases hinv.2 with hlt | ⟨heq, hB, hcap⟩
          · omega
          · refine ⟨heq, ?_⟩
            have hs : u32sub (maxSketchSpace env) BLOCK_SIZE_P
                = maxSketchSpace env - BLOCK_SIZE_P := by
              refine u32sub_eq (maxSketchSpace env) BLOCK_SIZE_P ?_ hmsk32
              omega
            rw [hs] at hcap
            omega
      · intro hfull e he o l h
        simp only [List.mem_cons] at he
        rcases he with rfl | rfl | he
        · exact nomatch h
        · exact nomatch h
        · exact blockTransferLoop_erase_bound env streamLength (maxSketchSpace env) type
            hfull (maxSketchSpace_mod env) hmsk32 (by omega)
            (u32 streamLength - 0) 0 0 0 0 rfl (Or.inl (Nat.zero_mod _)) e he o l h
    · rw [startUpdate_noPartition env streamLength type hsp (by simpa using hpa)]
      constructor
      · intro e he o l h
        simp only [List.mem_singleton] at he
        subst he
        exact nomatch h
      · intro hfull e he o l h
        simp only [List.mem_singleton] at he
        subst he
        exact nomatch h

/-- C3 witness: in a full-read run the regular erase at offset 0 stays
within the 8192-byte capacity. -/
theorem claim_C3_witness :
    Event.erase 0 BLOCK_SIZE_P ∈ (startUpdate envFull8192 4096 UPDATER_TYPE.FIRMWARE).trace ∧
    0 + BLOCK_SIZE_P ≤ maxSketchSpace envFull8192 := by
  have hm : Event.erase 0 BLOCK_SIZE_P
      ∈ (startUpdate envFull8192 4096 UPDATER_TYPE.FIRMWARE).trace := by
    simp [startUpdate, blockTransferLoop, readBlockFirmwareToBuffer, readBytesRetry,
      blockLen, maxSketchSpace, partitionAvailable, envFull8192, u32, u32sub, BLOCK_SIZE_P]
  exact ⟨hm, (claim_C3 envFull8192 4096 UPDATER_TYPE.FIRMWARE
    (by norm_num [envFull8192])).2 (fun n l => rfl) _ hm 0 BLOCK_SIZE_P rfl⟩

/-- C5 counterexample: a stream delivering 1 byte on the first read and
the remaining 4095 on the second lets the run complete with `OK`, yet the
first partition write stores 1 byte, not
`blockLen = min(blockSize, total − written) = 4096`. -/
theorem claim_C5_counterexample :
    (startUpdate envShortC5 4096 UPDATER_TYPE.FIRMWARE).err = UPDATER_ERROR.OK ∧
    Event.write 0 1 ∈ (startUpdate envShortC5 4096 UPDATER_TYPE.FIRMWARE).trace ∧
    (1 : Nat) ≠ min BLOCK_SIZE_P (u32 4096 - 0) := by
  refine ⟨?_, ?_, by decide⟩ <;>
  simp [startUpdate, blockTransferLoop, readBlockFirmwareToBuffer, readBytesRetry,
    blockLen, maxSketchSpace, partitionAvailable, envShortC5, u32, u32sub, BLOCK_SIZE_P]

/-- C5 (amended): in every iteration of the block-transfer loop, the write
at offset `written` stores exactly the byte count the successful block read
returned: for any stream that never over-delivers this count is positive
and at most `min(blockSize, total length − written)`, and it equals
`min(blockSize, total length − written)` exactly when the stream delivers
every requested byte. -/
theorem claim_C5 (env : Env) (streamLength : Int) (type : UPDATER_TYPE) :
    ((∀ n l, env.reads n l ≤ l) →
      ∀ e ∈ (startUpdate env streamLength type).trace, ∀ o l, e = Event.write o l →
        0 < l ∧ o < u32 streamLength ∧ l ≤ min BLOCK_SIZE_P (u32 streamLength - o)) ∧
    ((∀ n l, env.reads n l = l) →
      ∀ e ∈ (startUpdate env streamLength type).trace, ∀ o l, e = Event.write o l →
        l = min BLOCK_SIZE_P (u32 streamLength - o)) := by
  by_cases hsp : u32 streamLength > maxSketchSpace env
  · rw [startUpdate_noSpace env streamLength type hsp]
    constructor
    · intro hconf e he o l h
      simp only [List.mem_singleton] at he
      subst he
      exact nomatch h
    · intro hfull e he o l h
      simp only [List.mem_singleton] at he
      subst he
      exact nomatch h
  · by_cases hpa : partitionAvailable env type = true
    · rw [startUpdate_pass env streamLength type hsp hpa]
      constructor
      · intro hconf e he o l h
        simp only [List.mem_cons] at he
        rcases he with rfl | rfl | he
        · exact nomatch h
        · exact nomatch h
        · have hinv := (blockTransferLoop_trace_inv env streamLength (maxSketchSpace env)
            type (u32 streamLength - 0) 0 0 0 0 rfl e he).2.1 o l h
          have hle := blockTransferLoop_write_le env streamLength (maxSketchSpace env)
            type hconf (u32 streamLength - 0) 0 0 0 0 rfl e he o l h
          rw [blockLen_eq_min (u32 streamLength) o (le_of_lt hinv.1)] at hle
          exact ⟨hinv.2, hinv.1, hle⟩
      · intro hfull e he o l h
        simp only [List.mem_cons] at he
        rcases he with rfl | rfl | he
        · exact nomatch h
        · exact nomatch h
        · have hinv := (blockTransferLoop_trace_inv env streamLength (maxSketchSpace env)
            type (u32 streamLength - 0) 0 0 0 0 rfl e he).2.1 o l h
          have hex := blockTransferLoop_write_exact env streamLength (maxSketchSpace env)
            type hfull (u32 streamLength - 0) 0 0 0 0 rfl e he o l h
          rw [blockLen_eq_min (u32 streamLength) o (le_of_lt hinv.1)] at hex
          exact hex
    · rw [startUpdate_noPartition env streamLength type hsp (by simpa using hpa)]
      constructor
      · intro hconf e he o l h
        simp only [List.mem_singleton] at he
        subst he
        exact nomatch h
      · intro hfull e he o l h
        simp only [List.mem_singleton] at he
        subst he
        exact nomatch h

/-- C5 witness: in the full-read run of a 4096-byte stream, the single
write stores exactly `min(4096, 4096 − 0)` bytes. -/
theorem claim_C5_witness :
    Event.write 0 4096 ∈ (startUpdate envFull8192 4096 UPDATER_TYPE.FIRMWARE).trace ∧
    (4096 : Nat) = min BLOCK_SIZE_P (u32 4096 - 0) := by
  have hm : Event.write 0 4096
      ∈ (startUpdate envFull8192 4096 UPDATER_TYPE.FIRMWARE).trace := by
    simp [startUpdate, blockTransferLoop, readBlockFirmwareToBuffer, readBytesRetry,
      blockLen, maxSketchSpace, partitionAvailable, envFull8192, u32, u32sub, BLOCK_SIZE_P]
  exact ⟨hm, (claim_C5 envFull8192 4096 UPDATER_TYPE.FIRMWARE).2
    (fun n l => rfl) _ hm 0 4096 rfl⟩

/-- The comparison cascade of `newerVersion` decides exactly the strict
lexicographic order on (major, minor, patch). -/
theorem newerDecision_iff (mc ms nc ns pc ps : Int) :
    newerDecision mc ms nc ns pc ps = true ↔
      (mc < ms ∨ (mc = ms ∧ (nc < ns ∨ (nc = ns ∧ pc < ps)))) := by
  unfold newerDecision
  split_ifs <;> simp_all

/-- C6: for every pair of version buffers, `newerVersion(current,
candidate)` returns true if and only if the candidate's parsed
(major, minor, patch) integer triple is strictly greater than the
current's in lexicographic order; in particular equal versions are not
newer, and the comparison is numeric, so 1.10.0 is newer than 1.2.0. -/
theorem claim_C6 :
    (∀ currentVersion serverVersion : List Char,
      newerVersion currentVersion serverVersion = true ↔
        tripleLt (parsedTriple currentVersion) (parsedTriple serverVersion)) ∧
    newerVersion ("1.0.0".data) ("1.0.0".data) = false ∧
    newerVersion ("1.0.0".data) ("1.0.1".data) = true ∧
    newerVersion ("1.2.0".data) ("1.10.0".data) = true ∧
    newerVersion ("2.0.0".data) ("1.9.9".data) = false := by
  refine ⟨?_, by decide, by decide, by decide, by decide⟩
  intro currentVersion serverVersion
  unfold newerVersion parsedTriple tripleLt
  exact newerDecision_iff _ _ _ _ _ _

/-- C6 witness: 1.10.0 parses strictly greater than 1.2.0, obtained by
instantiating the equivalence at those buffers. -/
theorem claim_C6_witness :
    tripleLt (parsedTriple ("1.2.0".data)) (parsedTriple ("1.10.0".data)) :=
  (claim_C6.1 ("1.2.0".data) ("1.10.0".data)).mp (by decide)

/-- C7 (code behaviour at the failing input): with a supplied current
version equal to the server version (so the remote version is not strictly
newer) and every downloader stage succeeding, `updateFirmaware` returns
`NO_NEW_VERSION` and performs no download and no `startUpdate` call, but
`updateSPIFFS` on the very same input returns `UNKNOWN` — not the
documented `NO_NEW_VERSION` — while also performing no download and no
`startUpdate` call. -/
theorem claim_C7_code_bug :
    (updateFirmaware fenvServer100 [] ("u".data) ("1.0.0".data)).1
        = UPDATE_OTA_ERROR.NO_NEW_VERSION ∧
    FEvent.download ∉ (updateFirmaware fenvServer100 [] ("u".data) ("1.0.0".data)).2 ∧
    FEvent.startUpdateCall ∉ (updateFirmaware fenvServer100 [] ("u".data) ("1.0.0".data)).2 ∧
    (updateSPIFFS fenvServer100 [] ("u".data) ("1.0.0".data)).1
        = UPDATE_OTA_ERROR.UNKNOWN ∧
    (updateSPIFFS fenvServer100 [] ("u".data) ("1.0.0".data)).1
        ≠ UPDATE_OTA_ERROR.NO_NEW_VERSION ∧
    FEvent.download ∉ (updateSPIFFS fenvServer100 [] ("u".data) ("1.0.0".data)).2 ∧
    FEvent.startUpdateCall ∉ (updateSPIFFS fenvServer100 [] ("u".data) ("1.0.0".data)).2 := by
  decide

end UpdateOTAProof
